import Mathlib

/-!
# Seal / unseal HTTP handlers (`http/sys_seal.go`)

A shallow embedding of the three handlers of `sys_seal.go` and of the helper
`handleSysSealStatusRaw`.  A handler is a function from the core's state to the
core's state after the request together with the trace of everything the handler
did, in order: the calls it made on the core, the call to `parseRequest`, the
calls to `respondError` / `respondOk`, and the dereference of a nil pointer that
ends a run without a response.

The core (`*vault.Core`) is a parameter: a record of state-passing functions, one
per method the handlers call.  Bytes and Go strings are lists of naturals below 256.
-/

namespace Vault

/-! ## Go values -/

/-- Go `error` value; only its message is observable. -/
structure GoError where
  msg : String
deriving DecidableEq, Repr

/-- Go `errors.New`. -/
def errorsNew (msg : String) : GoError := ⟨msg⟩

/-- Go `net/http` constant `StatusBadRequest`. -/
def StatusBadRequest : Nat := 400

/-- Go `net/http` constant `StatusMethodNotAllowed`. -/
def StatusMethodNotAllowed : Nat := 405

/-- Go `net/http` constant `StatusInternalServerError`. -/
def StatusInternalServerError : Nat := 500

/-- Modelled from the spec: the declaration of `vault.SealConfig` is not among the
sources; the handler reads its fields `SecretThreshold` and `SecretShares`, and the
spec gives the configuration as the record `{T, N}` of two integers.  The handler
holds it through a pointer (`*vault.SealConfig`), which is `Option SealConfig`
here, `none` being the nil pointer. -/
structure SealConfig where
  SecretShares : Int
  SecretThreshold : Int
deriving DecidableEq, Repr

/-- The Go struct `SealStatusResponse`. -/
structure SealStatusResponse where
  Sealed : Bool
  T : Int
  N : Int
  Progress : Int
deriving DecidableEq, Repr

/-- The Go struct `UnsealRequest`; the Go string `Key` is its sequence of bytes. -/
structure UnsealRequest where
  Key : List Nat
deriving DecidableEq, Repr

/-- The part of `*http.Request` the handlers look at: the method, and the body that
`parseRequest` reads. -/
structure Request (β : Type) where
  Method : String
  Body : β

/-! ## The core and the trace of a handler -/

/-- The methods of `*vault.Core` called by the handlers, as state-passing functions.
Each returns the state after the call and the Go results (`value, err`).
`SealConfig` returns a pointer, which may be nil also when the error is nil. -/
structure Core (σ : Type) where
  Seal : σ → σ × Option GoError
  Unseal : σ → List Nat → σ × (Bool × Option GoError)
  Sealed : σ → σ × (Bool × Option GoError)
  SealConfig : σ → σ × (Option SealConfig × Option GoError)
  SecretProgress : σ → σ × Int

/-- What a handler does, one event per call it makes.  `nilDereference` is the
run-time failure of reading a field through a nil pointer: the handler stops there
and nothing after it is executed. -/
inductive Event where
  | parseRequest
  | coreSeal
  | coreUnseal (key : List Nat)
  | coreSealed
  | coreSealConfig
  | coreSecretProgress
  | respondError (status : Nat) (err : Option GoError)
  | respondOk (body : Option SealStatusResponse)
  | nilDereference
deriving DecidableEq, Repr

/-- The event is a response (`respondError` or `respondOk`). -/
def Event.isRespond : Event → Bool
  | .respondError _ _ => true
  | .respondOk _ => true
  | _ => false

/-- The event is a call of `core.Seal`. -/
def Event.isSeal : Event → Bool
  | .coreSeal => true
  | _ => false

/-- The event is a call of `core.Unseal`. -/
def Event.isUnseal : Event → Bool
  | .coreUnseal _ => true
  | _ => false

/-- The event is a call of any method of the core. -/
def Event.isCoreCall : Event → Bool
  | .coreSeal => true
  | .coreUnseal _ => true
  | .coreSealed => true
  | .coreSealConfig => true
  | .coreSecretProgress => true
  | _ => false

/-- The event is a call of one of the accessors `Sealed`, `SealConfig`,
`SecretProgress`. -/
def Event.isAccessor : Event → Bool
  | .coreSealed => true
  | .coreSealConfig => true
  | .coreSecretProgress => true
  | _ => false

/-- The responses of a trace, in order. -/
def responses (tr : List Event) : List Event := tr.filter Event.isRespond

/-! ## `encoding/hex` -/

/-- Go `encoding/hex`, `fromHexChar`: the value of one hex digit. -/
def fromHexChar (c : Nat) : Option Nat :=
  if 48 ≤ c ∧ c ≤ 57 then some (c - 48)
  else if 97 ≤ c ∧ c ≤ 102 then some (c - 97 + 10)
  else if 65 ≤ c ∧ c ≤ 70 then some (c - 65 + 10)
  else none

/-- Go `encoding/hex`, `ErrLength`. -/
def ErrLength : GoError := errorsNew "encoding/hex: odd length hex string"

/-- Go `encoding/hex`, `InvalidByteError`; the offending byte is kept as a number. -/
def InvalidByteError (c : Nat) : GoError :=
  errorsNew ("encoding/hex: invalid byte: " ++ toString c)

/-- Go `encoding/hex`, the loop of `Decode`: two digits make one byte
`(a << 4) | b`. -/
def hexDecodeLoop : List Nat → Except GoError (List Nat)
  | p :: q :: rest =>
    match fromHexChar p with
    | none => .error (InvalidByteError p)
    | some a =>
      match fromHexChar q with
      | none => .error (InvalidByteError q)
      | some b =>
        match hexDecodeLoop rest with
        | .error e => .error e
        | .ok out => .ok (((a <<< 4) ||| b) % 256 :: out)
  | _ => .ok []

/-- Go `encoding/hex`, `DecodeString`: an odd length is an error, otherwise the
digits are decoded pairwise. -/
def hexDecodeString (s : List Nat) : Except GoError (List Nat) :=
  if s.length % 2 = 1 then .error ErrLength else hexDecodeLoop s

/-- Go `encoding/hex`, the digit table `0123456789abcdef` of `EncodeToString`, and
its upper-case form. -/
def hexDigit (upper : Bool) (v : Nat) : Nat :=
  if v < 10 then 48 + v else if upper then 65 + (v - 10) else 97 + (v - 10)

/-- Go `encoding/hex`, `EncodeToString` (and its upper-case form): two digits per
byte, high nibble first. -/
def hexEncode (upper : Bool) : List Nat → List Nat
  | [] => []
  | v :: rest => hexDigit upper (v >>> 4) :: hexDigit upper (v &&& 15) :: hexEncode upper rest

/-- A valid hex string, in the words of the claim: an even number of characters,
each one of `0-9`, `a-f`, `A-F`. -/
def isHexDigit (c : Nat) : Bool :=
  (48 ≤ c && c ≤ 57) || (97 ≤ c && c ≤ 102) || (65 ≤ c && c ≤ 70)

/-- A valid hex string: even length, hex digits only. -/
def isValidHex (s : List Nat) : Bool :=
  s.length % 2 == 0 && s.all isHexDigit

/-! ## The handlers -/

section Handlers

variable {σ β : Type}

/-- The function `handleSysSealStatusRaw` of `sys_seal.go`.  Only the error of
`core.SealConfig` is tested before the fields of the configuration are read, so a
nil configuration returned with a nil error is dereferenced while the status is
built: the run stops there, before any response.  The fields are read in the order
of the literal, so `core.SecretProgress` is not reached on that path. -/
def handleSysSealStatusRaw (core : Core σ) (s : σ) : σ × List Event :=
  match core.Sealed s with
  | (s1, (_, some err)) =>
    (s1, [.coreSealed, .respondError StatusInternalServerError (some err)])
  | (s1, (sealed, none)) =>
    match core.SealConfig s1 with
    | (s2, (_, some err)) =>
      (s2, [.coreSealed, .coreSealConfig,
            .respondError StatusInternalServerError (some err)])
    | (s2, (none, none)) =>
      (s2, [.coreSealed, .coreSealConfig, .nilDereference])
    | (s2, (some sealConfig, none)) =>
      match core.SecretProgress s2 with
      | (s3, progress) =>
        (s3, [.coreSealed, .coreSealConfig, .coreSecretProgress,
              .respondOk (some {
                Sealed := sealed
                T := sealConfig.SecretThreshold
                N := sealConfig.SecretShares
                Progress := progress })])

/-- The handler `handleSysSeal` of `sys_seal.go`. -/
def handleSysSeal (core : Core σ) (r : Request β) (s : σ) : σ × List Event :=
  if r.Method ≠ "PUT" then
    (s, [.respondError StatusMethodNotAllowed none])
  else
    match core.Seal s with
    | (s1, some err) =>
      (s1, [.coreSeal, .respondError StatusInternalServerError (some err)])
    | (s1, none) =>
      (s1, [.coreSeal, .respondOk none])

/-- The handler `handleSysUnseal` of `sys_seal.go`; `parseRequest` (not among the
sources) is the parameter `parse`, which fills the `UnsealRequest` or fails. -/
def handleSysUnseal (core : Core σ) (parse : β → Except GoError UnsealRequest)
    (r : Request β) (s : σ) : σ × List Event :=
  if r.Method ≠ "PUT" then
    (s, [.respondError StatusMethodNotAllowed none])
  else
    match parse r.Body with
    | .error err => (s, [.parseRequest, .respondError StatusBadRequest (some err)])
    | .ok req =>
      if req.Key = [] then
        (s, [.parseRequest, .respondError StatusBadRequest
              (some (errorsNew "'key' must specified in request body as JSON"))])
      else
        match hexDecodeString req.Key with
        | .error _ =>
          (s, [.parseRequest, .respondError StatusBadRequest
                (some (errorsNew "'key' must be a valid hex-string"))])
        | .ok key =>
          match core.Unseal s key with
          | (s1, (_, some err)) =>
            (s1, [.parseRequest, .coreUnseal key,
                  .respondError StatusInternalServerError (some err)])
          | (s1, (_, none)) =>
            ((handleSysSealStatusRaw core s1).1,
              .parseRequest :: .coreUnseal key :: (handleSysSealStatusRaw core s1).2)

/-- The handler `handleSysSealStatus` of `sys_seal.go`. -/
def handleSysSealStatus (core : Core σ) (r : Request β) (s : σ) : σ × List Event :=
  if r.Method ≠ "GET" then
    (s, [.respondError StatusMethodNotAllowed none])
  else
    handleSysSealStatusRaw core s

end Handlers

/-! ## The seal coordinator behind the handlers -/

/-- Modelled from the spec: the threshold scheme the coordinator relies on is not
among the sources.  `validShare` is the structural validation of a submitted share,
`combine` is the SecretCombiner (a pure function that may fail), `wipe` tells
whether clearing a master secret succeeds. -/
structure Scheme where
  validShare : List Nat → Bool
  combine : List (List Nat) → SealConfig → Option (List Nat)
  wipe : List Nat → Bool

/-- Modelled from the spec: `vault.Core` is not among the sources.  The state owned
by the SealCoordinator: the configuration, the sealed flag, the accumulated
ShareSet and, while unsealed, the MasterSecret. -/
structure Coordinator where
  config : SealConfig
  sealed : Bool
  shares : List (List Nat)
  master : Option (List Nat)
deriving DecidableEq, Repr

/-- Modelled from the spec: the coordinator at initialization is `Sealed` with an
empty ShareSet and no MasterSecret. -/
def Coordinator.init (cfg : SealConfig) : Coordinator :=
  { config := cfg, sealed := true, shares := [], master := none }

/-- Modelled from the spec: error kind `InvalidShareEncoding`. -/
def InvalidShareEncoding : GoError := errorsNew "InvalidShareEncoding"

/-- Modelled from the spec: error kind `CombineFailed`. -/
def CombineFailed : GoError := errorsNew "CombineFailed"

/-- Modelled from the spec: the generic error kind `SealError`. -/
def SealError : GoError := errorsNew "SealError"

/-- Modelled from the spec: `ShareAccumulator.add`, which adds the share if it is
not already present and the current size is below `T`, and otherwise is a no-op
with `added = false`. -/
def accumulatorAdd (T : Int) (shares : List (List Nat)) (share : List Nat) :
    Bool × List (List Nat) :=
  if share ∉ shares ∧ (shares.length : Int) < T then (true, shares ++ [share])
  else (false, shares)

/-- Modelled from the spec: `SealCoordinator.SubmitShare`.  While unsealed it is a
no-op; a structurally invalid share is rejected before the accumulator; when the
add brings the size to exactly `T` the shares are combined, and the accumulator is
cleared whether the combine succeeds (the coordinator unseals) or fails
(`CombineFailed`).  The boolean is the sealed flag after the call. -/
def Coordinator.SubmitShare (sch : Scheme) (c : Coordinator) (share : List Nat) :
    Coordinator × (Bool × Option GoError) :=
  if c.sealed = false then (c, (false, none))
  else if sch.validShare share = false then (c, (true, some InvalidShareEncoding))
  else
    match accumulatorAdd c.config.SecretThreshold c.shares share with
    | (added, shares1) =>
      if added = true ∧ (shares1.length : Int) = c.config.SecretThreshold then
        match sch.combine shares1 c.config with
        | some secret =>
          ({ c with sealed := false, shares := [], master := some secret }, (false, none))
        | none => ({ c with shares := [] }, (true, some CombineFailed))
      else ({ c with shares := shares1 }, (true, none))

/-- Modelled from the spec: `SealCoordinator.Seal`, which clears the MasterSecret
and resets the accumulator; it fails only when clearing the secret fails, and the
coordinator is `Sealed` afterwards in either case. -/
def Coordinator.Seal (sch : Scheme) (c : Coordinator) : Coordinator × Option GoError :=
  match c.master with
  | none => ({ c with sealed := true, shares := [] }, none)
  | some secret =>
    ({ c with sealed := true, shares := [], master := none },
      if sch.wipe secret then none else some SealError)

/-- Modelled from the spec: the coordinator as the core of the handlers.  `Sealed`,
`Config` and `SecretProgress` read the state and change nothing; `SecretProgress`
is the current size of the accumulator. -/
def specCore (sch : Scheme) : Core Coordinator where
  Seal := Coordinator.Seal sch
  Unseal := Coordinator.SubmitShare sch
  Sealed := fun c => (c, (c.sealed, none))
  SealConfig := fun c => (c, (some c.config, none))
  SecretProgress := fun c => (c, (c.shares.length : Int))

/-- Modelled from the spec: the states the coordinator can be in, those obtained
from the initial state by any sequence of `Seal` and `SubmitShare` calls. -/
inductive Reachable (sch : Scheme) (cfg : SealConfig) : Coordinator → Prop where
  | init : Reachable sch cfg (Coordinator.init cfg)
  | afterSeal (c : Coordinator) :
      Reachable sch cfg c → Reachable sch cfg (Coordinator.Seal sch c).1
  | afterSubmit (c : Coordinator) (share : List Nat) :
      Reachable sch cfg c → Reachable sch cfg (Coordinator.SubmitShare sch c share).1

/-! ## Concrete inputs -/

/-- A scheme with threshold-independent, always successful combine: every share is
valid, the secret is the concatenation of the shares, wiping succeeds. -/
def demoScheme : Scheme where
  validShare := fun _ => true
  combine := fun shares _ => some shares.flatten
  wipe := fun _ => true

/-- A configuration with `T = 2`, `N = 3`. -/
def demoConfig : SealConfig := { SecretShares := 3, SecretThreshold := 2 }

/-- The coordinator after the two shares `[1]` and `[2]` were submitted under
`demoScheme` and `demoConfig`: it is unsealed. -/
def demoUnsealed : Coordinator :=
  (Coordinator.SubmitShare demoScheme
    (Coordinator.SubmitShare demoScheme (Coordinator.init demoConfig) [1]).1 [2]).1

/-- A request with the given method and the unseal request as its body. -/
def demoRequest (method : String) (key : List Nat) : Request UnsealRequest :=
  { Method := method, Body := { Key := key } }

/-- A `parseRequest` that accepts every body. -/
def demoParse : UnsealRequest → Except GoError UnsealRequest := fun b => .ok b

/-- A core whose `Seal` and `Unseal` always fail and whose accessors report a
fixed status; its state counts the calls of `Seal` and `Unseal`. -/
def failingCore : Core Nat where
  Seal := fun n => (n + 1, some (errorsNew "seal failed"))
  Unseal := fun n _ => (n + 1, (false, some (errorsNew "unseal failed")))
  Sealed := fun n => (n, (true, none))
  SealConfig := fun n => (n, (some demoConfig, none))
  SecretProgress := fun n => (n, 0)

/-- A core whose `Sealed` fails. -/
def sealedFailsCore : Core Nat where
  Seal := fun n => (n + 1, none)
  Unseal := fun n _ => (n + 1, (false, none))
  Sealed := fun n => (n, (false, some (errorsNew "sealed failed")))
  SealConfig := fun n => (n, (some demoConfig, none))
  SecretProgress := fun n => (n, 0)

/-- A core that holds no seal configuration: `SealConfig` returns a nil
configuration and a nil error, `Sealed` reports true, `Unseal` succeeds. -/
def nilConfigCore : Core Nat where
  Seal := fun n => (n + 1, none)
  Unseal := fun n _ => (n + 1, (false, none))
  Sealed := fun n => (n, (true, none))
  SealConfig := fun n => (n, (none, none))
  SecretProgress := fun n => (n, 0)

/-- A core whose `SealConfig` fails. -/
def configFailsCore : Core Nat where
  Seal := fun n => (n + 1, none)
  Unseal := fun n _ => (n + 1, (false, none))
  Sealed := fun n => (n, (true, none))
  SealConfig := fun n => (n, (none, some (errorsNew "config failed")))
  SecretProgress := fun n => (n, 0)

/-! ## Lemmas on hex decoding -/

theorem fromHexChar_isSome (c : Nat) : (fromHexChar c).isSome = isHexDigit c := by
  unfold fromHexChar isHexDigit
  split_ifs <;> simp_all

theorem fromHexChar_eq_none (c : Nat) : fromHexChar c = none ↔ isHexDigit c = false := by
  rw [← fromHexChar_isSome]
  cases fromHexChar c <;> simp

set_option maxRecDepth 100000 in
theorem nibbles_join : ∀ v < 256, ((v >>> 4) <<< 4 ||| (v &&& 15)) % 256 = v := by decide

set_option maxRecDepth 100000 in
theorem fromHexChar_hexDigit :
    ∀ v < 16, ∀ upper : Bool, fromHexChar (hexDigit upper v) = some v := by decide

set_option maxRecDepth 100000 in
theorem nibble_hi : ∀ v < 256, v >>> 4 < 16 := by decide

set_option maxRecDepth 100000 in
theorem nibble_lo : ∀ v < 256, v &&& 15 < 16 := by decide

theorem hexDecodeLoop_hexEncode (upper : Bool) (b : List Nat) (hb : ∀ x ∈ b, x < 256) :
    hexDecodeLoop (hexEncode upper b) = .ok b := by
  induction b with
  | nil => rfl
  | cons v rest ih =>
    have hv : v < 256 := hb v (List.mem_cons_self _ _)
    have hrest := ih (fun x hx => hb x (List.mem_cons_of_mem _ hx))
    simp only [hexEncode, hexDecodeLoop, fromHexChar_hexDigit _ (nibble_hi v hv),
      fromHexChar_hexDigit _ (nibble_lo v hv), hrest, nibbles_join v hv]

theorem hexEncode_length (upper : Bool) (b : List Nat) :
    (hexEncode upper b).length = 2 * b.length := by
  induction b with
  | nil => rfl
  | cons v rest ih => simp only [hexEncode, List.length_cons, ih]; omega

theorem hexEncode_ne_nil (upper : Bool) (b : List Nat) (hb : b ≠ []) :
    hexEncode upper b ≠ [] := by
  cases b with
  | nil => exact absurd rfl hb
  | cons v rest => simp [hexEncode]

theorem hexDecodeString_hexEncode (upper : Bool) (b : List Nat) (hb : ∀ x ∈ b, x < 256) :
    hexDecodeString (hexEncode upper b) = .ok b := by
  unfold hexDecodeString
  rw [hexEncode_length, if_neg (by omega)]
  exact hexDecodeLoop_hexEncode upper b hb

/-- The loop accepts a string of even length exactly when all its characters are hex
digits, and then produces one byte per two characters. -/
theorem hexDecodeLoop_spec (s : List Nat) (hlen : s.length % 2 = 0) :
    (s.all isHexDigit = true → ∃ out, hexDecodeLoop s = .ok out ∧ 2 * out.length = s.length) ∧
    (s.all isHexDigit = false → ∃ e, hexDecodeLoop s = .error e) := by
  induction s using hexDecodeLoop.induct with
  | case1 p q rest hp =>
    have hp2 := (fromHexChar_eq_none p).1 hp
    simp [hexDecodeLoop, hp, hp2]
  | case2 p q rest a hp hq =>
    have hq2 := (fromHexChar_eq_none q).1 hq
    simp [hexDecodeLoop, hp, hq, hq2]
  | case3 p q rest a hp b hq e he ih =>
    have hp2 : isHexDigit p = true := by rw [← fromHexChar_isSome, hp]; rfl
    have hq2 : isHexDigit q = true := by rw [← fromHexChar_isSome, hq]; rfl
    have hl : rest.length % 2 = 0 := by simp only [List.length_cons] at hlen; omega
    have ih2 := ih hl
    constructor
    · intro hall
      have hrest : rest.all isHexDigit = true := by
        simp only [List.all_cons, Bool.and_eq_true] at hall
        exact hall.2.2
      obtain ⟨out, hout, _⟩ := ih2.1 hrest
      rw [he] at hout
      cases hout
    · intro _
      exact ⟨e, by simp only [hexDecodeLoop, hp, hq, he]⟩
  | case4 p q rest a hp b hq out ho ih =>
    have hp2 : isHexDigit p = true := by rw [← fromHexChar_isSome, hp]; rfl
    have hq2 : isHexDigit q = true := by rw [← fromHexChar_isSome, hq]; rfl
    have hl : rest.length % 2 = 0 := by simp only [List.length_cons] at hlen; omega
    have ih2 := ih hl
    constructor
    · intro hall
      have hrest : rest.all isHexDigit = true := by
        simp only [List.all_cons, Bool.and_eq_true] at hall
        exact hall.2.2
      obtain ⟨out2, hout, hlen2⟩ := ih2.1 hrest
      rw [ho] at hout
      cases hout
      refine ⟨((a <<< 4) ||| b) % 256 :: out, by simp only [hexDecodeLoop, hp, hq, ho], ?_⟩
      simp only [List.length_cons]
      omega
    · intro hall
      have hrest : rest.all isHexDigit = false := by
        simp only [List.all_cons, hp2, hq2, Bool.true_and] at hall
        exact hall
      obtain ⟨e, he⟩ := ih2.2 hrest
      rw [ho] at he
      cases he
  | case5 t ht =>
    match t, ht, hlen with
    | [], _, _ => simp [hexDecodeLoop]
    | [_], _, hlen => simp at hlen
    | p :: q :: rest, ht, _ => exact absurd rfl (fun h => ht p q rest h)

/-- Decoding succeeds exactly on the valid hex strings. -/
theorem hexDecodeString_ok_iff (s : List Nat) :
    (∃ out, hexDecodeString s = .ok out) ↔ isValidHex s = true := by
  unfold hexDecodeString isValidHex
  by_cases hlen : s.length % 2 = 1
  · simp [hlen]
  · have hl : s.length % 2 = 0 := by omega
    rw [if_neg hlen]
    have hspec := hexDecodeLoop_spec s hl
    cases hall : s.all isHexDigit with
    | true =>
      obtain ⟨out, hout, _⟩ := hspec.1 hall
      simp [hl, hout]
    | false =>
      obtain ⟨e, he⟩ := hspec.2 hall
      simp [hl, he]

/-- Decoding fails exactly on the strings that are not valid hex. -/
theorem hexDecodeString_error_iff (s : List Nat) :
    (∃ e, hexDecodeString s = .error e) ↔ isValidHex s = false := by
  have h := hexDecodeString_ok_iff s
  cases hd : hexDecodeString s with
  | error e =>
    rw [hd] at h
    cases hv : isValidHex s with
    | false => simp
    | true =>
      obtain ⟨out, hout⟩ := h.2 hv
      cases hout
  | ok out =>
    rw [hd] at h
    have hv : isValidHex s = true := h.1 ⟨out, rfl⟩
    simp [hv]

/-- A decoded share has one byte per two characters of the key. -/
theorem hexDecodeString_length (s out : List Nat) (h : hexDecodeString s = .ok out) :
    2 * out.length = s.length := by
  unfold hexDecodeString at h
  by_cases hlen : s.length % 2 = 1
  · rw [if_pos hlen] at h
    cases h
  · rw [if_neg hlen] at h
    have hspec := hexDecodeLoop_spec s (by omega)
    cases hall : s.all isHexDigit with
    | true =>
      obtain ⟨out2, hout, hl⟩ := hspec.1 hall
      rw [h] at hout
      cases hout
      exact hl
    | false =>
      obtain ⟨e, he⟩ := hspec.2 hall
      rw [h] at he
      cases he

/-! ## Lemmas on the handlers -/

section HandlerLemmas

variable {σ β : Type}

theorem handleSysSeal_of_put (core : Core σ) (r : Request β) (s : σ) (hm : r.Method = "PUT") :
    handleSysSeal core r s =
      match core.Seal s with
      | (s1, some err) =>
        (s1, [.coreSeal, .respondError StatusInternalServerError (some err)])
      | (s1, none) => (s1, [.coreSeal, .respondOk none]) := by
  unfold handleSysSeal
  rw [if_neg (not_not.mpr hm)]

theorem handleSysUnseal_of_key (core : Core σ) (parse : β → Except GoError UnsealRequest)
    (r : Request β) (s : σ) (req : UnsealRequest) (key : List Nat)
    (hm : r.Method = "PUT") (hp : parse r.Body = .ok req) (hne : req.Key ≠ [])
    (hd : hexDecodeString req.Key = .ok key) :
    handleSysUnseal core parse r s =
      match core.Unseal s key with
      | (s1, (_, some err)) =>
        (s1, [.parseRequest, .coreUnseal key,
              .respondError StatusInternalServerError (some err)])
      | (s1, (_, none)) =>
        ((handleSysSealStatusRaw core s1).1,
          .parseRequest :: .coreUnseal key :: (handleSysSealStatusRaw core s1).2) := by
  unfold handleSysUnseal
  rw [if_neg (not_not.mpr hm)]
  simp only [hp, if_neg hne, hd]

theorem statusRaw_of_sealed_error (core : Core σ) (s s1 : σ) (v : Bool) (e : GoError)
    (hs : core.Sealed s = (s1, (v, some e))) :
    handleSysSealStatusRaw core s =
      (s1, [.coreSealed, .respondError StatusInternalServerError (some e)]) := by
  unfold handleSysSealStatusRaw
  rw [hs]

theorem statusRaw_of_config_error (core : Core σ) (s s1 s2 : σ) (sealed : Bool)
    (v : Option SealConfig) (e : GoError)
    (hs : core.Sealed s = (s1, (sealed, none)))
    (hc : core.SealConfig s1 = (s2, (v, some e))) :
    handleSysSealStatusRaw core s =
      (s2, [.coreSealed, .coreSealConfig,
            .respondError StatusInternalServerError (some e)]) := by
  unfold handleSysSealStatusRaw
  rw [hs]
  simp only [hc]

theorem statusRaw_of_success (core : Core σ) (s s1 s2 : σ) (sealed : Bool)
    (cfg : SealConfig)
    (hs : core.Sealed s = (s1, (sealed, none)))
    (hc : core.SealConfig s1 = (s2, (some cfg, none))) :
    handleSysSealStatusRaw core s =
      ((core.SecretProgress s2).1,
        [.coreSealed, .coreSealConfig, .coreSecretProgress,
         .respondOk (some {
            Sealed := sealed
            T := cfg.SecretThreshold
            N := cfg.SecretShares
            Progress := (core.SecretProgress s2).2 })]) := by
  unfold handleSysSealStatusRaw
  rw [hs]
  simp only [hc]

theorem statusRaw_of_nil_config (core : Core σ) (s s1 s2 : σ) (sealed : Bool)
    (hs : core.Sealed s = (s1, (sealed, none)))
    (hc : core.SealConfig s1 = (s2, (none, none))) :
    handleSysSealStatusRaw core s =
      (s2, [.coreSealed, .coreSealConfig, .nilDereference]) := by
  unfold handleSysSealStatusRaw
  rw [hs]
  simp only [hc]

/-- The four shapes a run of `handleSysSealStatusRaw` can have. -/
theorem statusRaw_cases (core : Core σ) (s : σ) :
    (∃ s1 e, handleSysSealStatusRaw core s =
        (s1, [.coreSealed, .respondError StatusInternalServerError (some e)])) ∨
    (∃ s2 e, handleSysSealStatusRaw core s =
        (s2, [.coreSealed, .coreSealConfig,
              .respondError StatusInternalServerError (some e)])) ∨
    (∃ s3 st, handleSysSealStatusRaw core s =
        (s3, [.coreSealed, .coreSealConfig, .coreSecretProgress,
              .respondOk (some st)])) ∨
    (∃ s2, handleSysSealStatusRaw core s =
        (s2, [.coreSealed, .coreSealConfig, .nilDereference])) := by
  rcases hs : core.Sealed s with ⟨s1, sealed, _ | err⟩
  · rcases hc : core.SealConfig s1 with ⟨s2, cfg, _ | err⟩
    · cases cfg with
      | none =>
        exact Or.inr (Or.inr (Or.inr ⟨_, statusRaw_of_nil_config core s s1 s2 sealed hs hc⟩))
      | some cfg =>
        exact Or.inr (Or.inr (Or.inl
          ⟨_, _, statusRaw_of_success core s s1 s2 sealed cfg hs hc⟩))
    · exact Or.inr (Or.inl ⟨_, _, statusRaw_of_config_error core s s1 s2 sealed cfg err hs hc⟩)
  · exact Or.inl ⟨_, _, statusRaw_of_sealed_error core s s1 sealed err hs⟩

theorem statusRaw_responses (core : Core σ) (s : σ) :
    (responses (handleSysSealStatusRaw core s).2).length ≤ 1 := by
  rcases statusRaw_cases core s with ⟨_, _, h⟩ | ⟨_, _, h⟩ | ⟨_, _, h⟩ | ⟨_, h⟩ <;>
    rw [h] <;> first | exact Nat.le_refl 1 | exact Nat.zero_le 1

theorem statusRaw_accessors (core : Core σ) (s : σ) :
    ∀ e ∈ (handleSysSealStatusRaw core s).2,
      e.isSeal = false ∧ e.isUnseal = false ∧ (e.isCoreCall = true → e.isAccessor = true) := by
  rcases statusRaw_cases core s with ⟨_, _, h⟩ | ⟨_, _, h⟩ | ⟨_, _, h⟩ | ⟨_, h⟩ <;>
    rw [h] <;> simp [Event.isSeal, Event.isUnseal, Event.isCoreCall, Event.isAccessor]

theorem statusRaw_state (core : Core σ) (s : σ)
    (h1 : ∀ x, (core.Sealed x).1 = x) (h2 : ∀ x, (core.SealConfig x).1 = x)
    (h3 : ∀ x, (core.SecretProgress x).1 = x) :
    (handleSysSealStatusRaw core s).1 = s := by
  have e1 := h1 s
  rcases hs : core.Sealed s with ⟨s1, sealed, _ | err⟩
  · rw [hs] at e1
    have e2 := h2 s1
    rcases hc : core.SealConfig s1 with ⟨s2, cfg, _ | err⟩
    · rw [hc] at e2
      cases cfg with
      | none =>
        rw [statusRaw_of_nil_config core s s1 s2 sealed hs hc]
        simp only at e1 e2 ⊢
        rw [e2, e1]
      | some cfg =>
        rw [statusRaw_of_success core s s1 s2 sealed cfg hs hc]
        simp only at e1 e2 ⊢
        rw [h3 s2, e2, e1]
    · rw [hc] at e2
      rw [statusRaw_of_config_error core s s1 s2 sealed cfg err hs hc]
      simp only at e1 e2 ⊢
      rw [e2, e1]
  · rw [hs] at e1
    rw [statusRaw_of_sealed_error core s s1 sealed err hs]
    exact e1

end HandlerLemmas

section MoreHandlerLemmas

variable {σ β : Type}

theorem statusRaw_no_unseal (core : Core σ) (s : σ) :
    (handleSysSealStatusRaw core s).2.filter Event.isUnseal = [] := by
  rw [List.filter_eq_nil_iff]
  intro e he
  rw [(statusRaw_accessors core s e he).2.1]
  exact Bool.false_ne_true

/-- On an accepted PUT request the only call of `core.Unseal` is the one with the
decoded key. -/
theorem unseal_calls_of_key (core : Core σ) (parse : β → Except GoError UnsealRequest)
    (r : Request β) (s : σ) (req : UnsealRequest) (key : List Nat)
    (hm : r.Method = "PUT") (hp : parse r.Body = .ok req) (hne : req.Key ≠ [])
    (hd : hexDecodeString req.Key = .ok key) :
    (handleSysUnseal core parse r s).2.filter Event.isUnseal = [.coreUnseal key] := by
  rw [handleSysUnseal_of_key core parse r s req key hm hp hne hd]
  rcases core.Unseal s key with ⟨s1, b, _ | err⟩
  · show List.filter Event.isUnseal
      (.parseRequest :: .coreUnseal key :: (handleSysSealStatusRaw core s1).2) = _
    rw [List.filter_cons_of_neg (by simp [Event.isUnseal]),
      List.filter_cons_of_pos (by simp [Event.isUnseal]), statusRaw_no_unseal]
  · rfl

/-- The runs of `handleSysUnseal`: a rejection that leaves the state alone, a
failed `core.Unseal`, or a successful one followed by the status. -/
theorem unseal_cases (core : Core σ) (parse : β → Except GoError UnsealRequest)
    (r : Request β) (s : σ) :
    (∃ pre status err, handleSysUnseal core parse r s =
        (s, pre ++ [.respondError status err]) ∧
        (pre = [] ∨ pre = [.parseRequest])) ∨
    (∃ key err, handleSysUnseal core parse r s =
        ((core.Unseal s key).1, [.parseRequest, .coreUnseal key,
          .respondError StatusInternalServerError (some err)])) ∨
    (∃ key, handleSysUnseal core parse r s =
        ((handleSysSealStatusRaw core (core.Unseal s key).1).1,
          .parseRequest :: .coreUnseal key ::
            (handleSysSealStatusRaw core (core.Unseal s key).1).2)) := by
  by_cases hm : r.Method = "PUT"
  · cases hp : parse r.Body with
    | error err =>
      refine Or.inl ⟨[.parseRequest], StatusBadRequest, some err, ?_, Or.inr rfl⟩
      unfold handleSysUnseal
      rw [if_neg (not_not.mpr hm)]
      simp only [hp, List.singleton_append]
    | ok req =>
      by_cases hne : req.Key = []
      · refine Or.inl ⟨[.parseRequest], StatusBadRequest,
          some (errorsNew "'key' must specified in request body as JSON"), ?_, Or.inr rfl⟩
        unfold handleSysUnseal
        rw [if_neg (not_not.mpr hm)]
        simp only [hp, if_pos hne, List.singleton_append]
      · cases hd : hexDecodeString req.Key with
        | error e =>
          refine Or.inl ⟨[.parseRequest], StatusBadRequest,
            some (errorsNew "'key' must be a valid hex-string"), ?_, Or.inr rfl⟩
          unfold handleSysUnseal
          rw [if_neg (not_not.mpr hm)]
          simp only [hp, if_neg hne, hd, List.singleton_append]
        | ok key =>
          rw [handleSysUnseal_of_key core parse r s req key hm hp hne hd]
          rcases hu : core.Unseal s key with ⟨s1, b, _ | err⟩
          · refine Or.inr (Or.inr ⟨key, ?_⟩)
            rw [hu]
          · refine Or.inr (Or.inl ⟨key, err, ?_⟩)
            rw [hu]
  · refine Or.inl ⟨[], StatusMethodNotAllowed, none, ?_, Or.inl rfl⟩
    unfold handleSysUnseal
    rw [if_pos hm]
    rfl

end MoreHandlerLemmas

/-! ## Lemmas on the coordinator -/

/-- While the coordinator is unsealed its accumulator is empty. -/
theorem reachable_unsealed_empty (sch : Scheme) (cfg : SealConfig) (c : Coordinator)
    (hr : Reachable sch cfg c) : c.sealed = false → c.shares = [] := by
  induction hr with
  | init => intro h; cases h
  | afterSeal c _ _ =>
    intro h
    unfold Coordinator.Seal at h
    cases hm : c.master <;> rw [hm] at h <;> cases h
  | afterSubmit c share _ ih =>
    unfold Coordinator.SubmitShare
    by_cases hs : c.sealed = false
    · rw [if_pos hs]
      exact fun _ => ih hs
    · rw [if_neg hs]
      by_cases hv : sch.validShare share = false
      · rw [if_pos hv]
        exact fun h => absurd h hs
      · rw [if_neg hv]
        have hst : c.sealed = true := by simpa using hs
        rcases accumulatorAdd c.config.SecretThreshold c.shares share with ⟨added, shares1⟩
        simp only
        split_ifs with hfull
        · cases sch.combine shares1 c.config with
          | none => intro _; rfl
          | some secret => intro _; rfl
        · intro h
          exact absurd h hs

theorem statusRaw_specCore (sch : Scheme) (c : Coordinator) :
    handleSysSealStatusRaw (specCore sch) c =
      (c, [.coreSealed, .coreSealConfig, .coreSecretProgress,
           .respondOk (some {
              Sealed := c.sealed
              T := c.config.SecretThreshold
              N := c.config.SecretShares
              Progress := (c.shares.length : Int) })]) :=
  statusRaw_of_success (specCore sch) c c c c.sealed c.config rfl rfl

theorem statusRaw_specCore_body (sch : Scheme) (cfg : SealConfig) (c : Coordinator)
    (hr : Reachable sch cfg c) (st : SealStatusResponse)
    (hmem : Event.respondOk (some st) ∈ (handleSysSealStatusRaw (specCore sch) c).2)
    (hs : st.Sealed = false) : st.Progress = 0 := by
  rw [statusRaw_specCore] at hmem
  simp only [List.mem_cons, List.mem_singleton, List.not_mem_nil, or_false, reduceCtorEq,
    false_or, Event.respondOk.injEq, Option.some.injEq] at hmem
  subst hmem
  simp only at hs ⊢
  rw [reachable_unsealed_empty sch cfg c hr hs]
  rfl

/-! ## The claims on the handlers -/

section Claims

variable {σ β : Type}

/-- C1: a PUT request to `handleSysUnseal` whose body parses but whose key is empty
or is not a valid hex string is answered with 400 Bad Request right after
`parseRequest`: the trace holds no call of the core (so no `core.Unseal`), and the
state of the core after the request is the state before it. -/
theorem unseal_rejects_malformed_key (core : Core σ)
    (parse : β → Except GoError UnsealRequest) (r : Request β) (s : σ)
    (req : UnsealRequest) (hm : r.Method = "PUT") (hp : parse r.Body = .ok req)
    (hk : req.Key = [] ∨ isValidHex req.Key = false) :
    StatusBadRequest = 400 ∧
    ∃ err, handleSysUnseal core parse r s =
      (s, [.parseRequest, .respondError StatusBadRequest (some err)]) := by
  refine ⟨rfl, ?_⟩
  unfold handleSysUnseal
  rw [if_neg (not_not.mpr hm)]
  by_cases hne : req.Key = []
  · exact ⟨errorsNew "'key' must specified in request body as JSON",
      by simp only [hp, if_pos hne]⟩
  · have hbad : isValidHex req.Key = false := hk.resolve_left hne
    obtain ⟨e, he⟩ := (hexDecodeString_error_iff req.Key).2 hbad
    exact ⟨errorsNew "'key' must be a valid hex-string",
      by simp only [hp, if_neg hne, he]⟩

/-- Witness of C1 on the key `abc` (odd length) sent to a core that counts its
calls. -/
theorem unseal_rejects_malformed_key_witness :
    StatusBadRequest = 400 ∧
    ∃ err, handleSysUnseal failingCore demoParse (demoRequest "PUT" [97, 98, 99]) 7 =
      (7, [.parseRequest, .respondError StatusBadRequest (some err)]) :=
  unseal_rejects_malformed_key failingCore demoParse (demoRequest "PUT" [97, 98, 99]) 7
    { Key := [97, 98, 99] } rfl rfl (Or.inr (by decide))

/-- C2 as stated fails: on a PUT request on which `core.Seal` returns no error the
handler writes no status body at all, so no response with `sealed = true` and
`progress = 0` is in the trace. -/
theorem seal_response_carries_no_status :
    (demoRequest "PUT" []).Method = "PUT" ∧
    ((specCore demoScheme).Seal (Coordinator.init demoConfig)).2 = none ∧
    ¬ ∃ st : SealStatusResponse,
        Event.respondOk (some st) ∈
          (handleSysSeal (specCore demoScheme) (demoRequest "PUT" [])
            (Coordinator.init demoConfig)).2 ∧
        st.Sealed = true ∧ st.Progress = 0 := by
  refine ⟨rfl, rfl, ?_⟩
  rintro ⟨st, hmem, _⟩
  rw [handleSysSeal_of_put _ _ _ rfl] at hmem
  simp [specCore, Coordinator.Seal, Coordinator.init] at hmem

/-- C2, amended: on a PUT request on which `core.Seal` returns no error,
`handleSysSeal` calls `core.Seal` once and answers `respondOk` with a nil body. -/
theorem seal_responds_ok_without_body (core : Core σ) (r : Request β) (s : σ)
    (hm : r.Method = "PUT") (hs : (core.Seal s).2 = none) :
    handleSysSeal core r s = ((core.Seal s).1, [.coreSeal, .respondOk none]) := by
  rw [handleSysSeal_of_put core r s hm]
  rcases hc : core.Seal s with ⟨s1, _ | err⟩
  · rfl
  · rw [hc] at hs
    cases hs

/-- Witness of the amended C2 on the coordinator in its initial state. -/
theorem seal_responds_ok_without_body_witness :
    handleSysSeal (specCore demoScheme) (demoRequest "PUT" []) (Coordinator.init demoConfig) =
      (((specCore demoScheme).Seal (Coordinator.init demoConfig)).1,
        [.coreSeal, .respondOk none]) :=
  seal_responds_ok_without_body (specCore demoScheme) (demoRequest "PUT" [])
    (Coordinator.init demoConfig) rfl rfl

/-- C3: on a PUT request with a non-empty valid-hex key on which `core.Unseal`
returns no error, what `handleSysUnseal` does after the call is exactly a run of
`handleSysSealStatusRaw` on the state the call left: same final state, same calls,
same response, whatever boolean `core.Unseal` returned. -/
theorem unseal_success_reports_status (core : Core σ)
    (parse : β → Except GoError UnsealRequest) (r : Request β) (s s1 : σ)
    (req : UnsealRequest) (key : List Nat) (unsealed : Bool)
    (hm : r.Method = "PUT") (hp : parse r.Body = .ok req) (hne : req.Key ≠ [])
    (hd : hexDecodeString req.Key = .ok key)
    (hu : core.Unseal s key = (s1, (unsealed, none))) :
    handleSysUnseal core parse r s =
      ((handleSysSealStatusRaw core s1).1,
        .parseRequest :: .coreUnseal key :: (handleSysSealStatusRaw core s1).2) ∧
    responses (handleSysUnseal core parse r s).2 =
      responses (handleSysSealStatusRaw core s1).2 := by
  have h := handleSysUnseal_of_key core parse r s req key hm hp hne hd
  rw [hu] at h
  simp only at h
  rw [h]
  exact ⟨rfl, rfl⟩

/-- Witness of C3: the first share `ab` submitted to the coordinator. -/
theorem unseal_success_reports_status_witness :
    handleSysUnseal (specCore demoScheme) demoParse (demoRequest "PUT" [97, 98])
        (Coordinator.init demoConfig) =
      ((handleSysSealStatusRaw (specCore demoScheme)
          { Coordinator.init demoConfig with shares := [[171]] }).1,
        .parseRequest :: .coreUnseal [171] ::
          (handleSysSealStatusRaw (specCore demoScheme)
            { Coordinator.init demoConfig with shares := [[171]] }).2) ∧
    responses (handleSysUnseal (specCore demoScheme) demoParse (demoRequest "PUT" [97, 98])
        (Coordinator.init demoConfig)).2 =
      responses (handleSysSealStatusRaw (specCore demoScheme)
          { Coordinator.init demoConfig with shares := [[171]] }).2 :=
  unseal_success_reports_status (specCore demoScheme) demoParse (demoRequest "PUT" [97, 98])
    (Coordinator.init demoConfig) { Coordinator.init demoConfig with shares := [[171]] }
    { Key := [97, 98] } [171] true rfl rfl (by decide) rfl rfl

end Claims

section ClaimsStatus

variable {σ β : Type}

/-- C4 as stated fails: on a core whose `Sealed` returns no error and whose
`SealConfig` returns no error but a nil configuration, `handleSysSealStatusRaw`
writes no response at all, so it does not respond OK with a status. -/
theorem status_raw_nil_config_writes_no_status :
    (nilConfigCore.Sealed 0).2.2 = none ∧
    (nilConfigCore.SealConfig 0).2.2 = none ∧
    responses (handleSysSealStatusRaw nilConfigCore 0).2 = [] ∧
    ¬ ∃ st : SealStatusResponse,
        Event.respondOk (some st) ∈ (handleSysSealStatusRaw nilConfigCore 0).2 := by
  refine ⟨rfl, rfl, ?_, ?_⟩
  · rw [statusRaw_of_nil_config nilConfigCore 0 0 0 true rfl rfl]
    rfl
  · rintro ⟨st, hmem⟩
    rw [statusRaw_of_nil_config nilConfigCore 0 0 0 true rfl rfl] at hmem
    simp at hmem

/-- C4, amended: when `core.Sealed` returns no error and `core.SealConfig` returns
no error and a non-nil configuration, `handleSysSealStatusRaw` responds OK with the
status whose `Sealed` is the value returned by `core.Sealed`, whose `T` and `N` are
the `SecretThreshold` and `SecretShares` of the returned configuration and whose
`Progress` is the value of `core.SecretProgress`; when `core.Sealed` fails, or
`core.SealConfig` fails after it, the only response is a 500 carrying that error,
and no status body is written. -/
theorem status_raw_reports_core (core : Core σ) (s : σ) :
    StatusInternalServerError = 500 ∧
    (∀ (s1 s2 : σ) (sealed : Bool) (cfg : SealConfig),
      core.Sealed s = (s1, (sealed, none)) →
      core.SealConfig s1 = (s2, (some cfg, none)) →
      responses (handleSysSealStatusRaw core s).2 =
        [.respondOk (some {
            Sealed := sealed
            T := cfg.SecretThreshold
            N := cfg.SecretShares
            Progress := (core.SecretProgress s2).2 })]) ∧
    (∀ (s1 : σ) (v : Bool) (e : GoError),
      core.Sealed s = (s1, (v, some e)) →
      handleSysSealStatusRaw core s =
        (s1, [.coreSealed, .respondError StatusInternalServerError (some e)])) ∧
    (∀ (s1 s2 : σ) (sealed : Bool) (v : Option SealConfig) (e : GoError),
      core.Sealed s = (s1, (sealed, none)) → core.SealConfig s1 = (s2, (v, some e)) →
      handleSysSealStatusRaw core s =
        (s2, [.coreSealed, .coreSealConfig,
              .respondError StatusInternalServerError (some e)])) := by
  refine ⟨rfl, ?_, ?_, ?_⟩
  · intro s1 s2 sealed cfg hs hc
    rw [statusRaw_of_success core s s1 s2 sealed cfg hs hc]
    rfl
  · intro s1 v e hs
    exact statusRaw_of_sealed_error core s s1 v e hs
  · intro s1 s2 sealed v e hs hc
    exact statusRaw_of_config_error core s s1 s2 sealed v e hs hc

/-- Witness of the amended C4: the unsealed coordinator, a core whose `Sealed`
fails and a core whose `SealConfig` fails. -/
theorem status_raw_reports_core_witness :
    responses (handleSysSealStatusRaw (specCore demoScheme) demoUnsealed).2 =
      [.respondOk (some { Sealed := false, T := 2, N := 3, Progress := 0 })] ∧
    handleSysSealStatusRaw sealedFailsCore 7 =
      (7, [.coreSealed, .respondError 500 (some (errorsNew "sealed failed"))]) ∧
    handleSysSealStatusRaw configFailsCore 7 =
      (7, [.coreSealed, .coreSealConfig,
           .respondError 500 (some (errorsNew "config failed"))]) :=
  ⟨(status_raw_reports_core (specCore demoScheme) demoUnsealed).2.1
      demoUnsealed demoUnsealed false demoConfig rfl rfl,
    (status_raw_reports_core sealedFailsCore 7).2.2.1 7 false _ rfl,
    (status_raw_reports_core configFailsCore 7).2.2.2 7 7 true none _ rfl rfl⟩

/-- C5: on the coordinator of the spec, in every state it can reach, every status
body written by `handleSysSealStatusRaw`, by a status query or after an unseal
submission has `Progress = 0` whenever its `Sealed` is false. -/
theorem unsealed_status_has_zero_progress (sch : Scheme) (cfg : SealConfig)
    (c : Coordinator) (hr : Reachable sch cfg c)
    (parse : β → Except GoError UnsealRequest) (r : Request β) (st : SealStatusResponse)
    (hmem : Event.respondOk (some st) ∈ (handleSysSealStatusRaw (specCore sch) c).2 ∨
      Event.respondOk (some st) ∈ (handleSysSealStatus (specCore sch) r c).2 ∨
      Event.respondOk (some st) ∈ (handleSysUnseal (specCore sch) parse r c).2)
    (hs : st.Sealed = false) : st.Progress = 0 := by
  rcases hmem with h | h | h
  · exact statusRaw_specCore_body sch cfg c hr st h hs
  · unfold handleSysSealStatus at h
    split_ifs at h
    · simp at h
    · exact statusRaw_specCore_body sch cfg c hr st h hs
  · rcases unseal_cases (specCore sch) parse r c with
      ⟨pre, status, err, heq, hpre⟩ | ⟨key, err, heq⟩ | ⟨key, heq⟩
    · rw [heq] at h
      rcases hpre with rfl | rfl <;> simp at h
    · rw [heq] at h
      simp at h
    · rw [heq] at h
      simp only [List.mem_cons, reduceCtorEq, false_or] at h
      exact statusRaw_specCore_body sch cfg _ (Reachable.afterSubmit c key hr) st h hs

/-- Witness of C5: a status query on the unsealed coordinator. -/
theorem unsealed_status_has_zero_progress_witness :
    Reachable demoScheme demoConfig demoUnsealed ∧
    Event.respondOk (some { Sealed := false, T := 2, N := 3, Progress := 0 }) ∈
      (handleSysSealStatus (specCore demoScheme) (demoRequest "GET" []) demoUnsealed).2 ∧
    ({ Sealed := false, T := 2, N := 3, Progress := 0 } : SealStatusResponse).Progress = 0 :=
  ⟨Reachable.afterSubmit _ [2] (Reachable.afterSubmit _ [1] Reachable.init),
    by decide,
    unsealed_status_has_zero_progress demoScheme demoConfig demoUnsealed
      (Reachable.afterSubmit _ [2] (Reachable.afterSubmit _ [1] Reachable.init))
      demoParse (demoRequest "GET" []) _ (Or.inr (Or.inl (by decide))) rfl⟩

/-- C6: a request whose method is not `PUT` gets 405 Method Not Allowed from
`handleSysSeal` and from `handleSysUnseal`; that response is the whole trace, so
the body is not parsed and neither `core.Seal` nor `core.Unseal` is called, and the
state of the core is unchanged. -/
theorem seal_unseal_require_put (core : Core σ)
    (parse : β → Except GoError UnsealRequest) (r : Request β) (s : σ)
    (hm : r.Method ≠ "PUT") :
    StatusMethodNotAllowed = 405 ∧
    handleSysSeal core r s = (s, [.respondError StatusMethodNotAllowed none]) ∧
    handleSysUnseal core parse r s = (s, [.respondError StatusMethodNotAllowed none]) := by
  refine ⟨rfl, ?_, ?_⟩
  · unfold handleSysSeal
    rw [if_pos hm]
  · unfold handleSysUnseal
    rw [if_pos hm]

/-- Witness of C6: a `POST` request. -/
theorem seal_unseal_require_put_witness :
    StatusMethodNotAllowed = 405 ∧
    handleSysSeal failingCore (demoRequest "POST" [97, 98]) 7 =
      (7, [.respondError StatusMethodNotAllowed none]) ∧
    handleSysUnseal failingCore demoParse (demoRequest "POST" [97, 98]) 7 =
      (7, [.respondError StatusMethodNotAllowed none]) :=
  seal_unseal_require_put failingCore demoParse (demoRequest "POST" [97, 98]) 7 (by decide)

end ClaimsStatus

section ClaimsErrors

variable {σ β : Type}

/-- C7: on a PUT request `handleSysSeal` calls `core.Seal` exactly once, and on a
PUT request whose body parses to a non-empty valid-hex key `handleSysUnseal` calls
`core.Unseal` exactly once; when that call returns an error the only response is a
500 Internal Server Error carrying it, and the handler stops there. -/
theorem core_errors_are_surfaced (core : Core σ)
    (parse : β → Except GoError UnsealRequest) (r : Request β) (s : σ)
    (hm : r.Method = "PUT") :
    StatusInternalServerError = 500 ∧
    (handleSysSeal core r s).2.filter Event.isSeal = [.coreSeal] ∧
    (handleSysSeal core r s).1 = (core.Seal s).1 ∧
    (∀ e, (core.Seal s).2 = some e →
      handleSysSeal core r s =
        ((core.Seal s).1,
          [.coreSeal, .respondError StatusInternalServerError (some e)])) ∧
    (∀ (req : UnsealRequest) (key : List Nat),
      parse r.Body = .ok req → req.Key ≠ [] → hexDecodeString req.Key = .ok key →
      (handleSysUnseal core parse r s).2.filter Event.isUnseal = [.coreUnseal key] ∧
      (∀ e, (core.Unseal s key).2.2 = some e →
        handleSysUnseal core parse r s =
          ((core.Unseal s key).1,
            [.parseRequest, .coreUnseal key,
             .respondError StatusInternalServerError (some e)]))) := by
  refine ⟨rfl, ?_, ?_, ?_, ?_⟩
  · rw [handleSysSeal_of_put core r s hm]
    rcases core.Seal s with ⟨s1, _ | err⟩ <;> rfl
  · rw [handleSysSeal_of_put core r s hm]
    rcases core.Seal s with ⟨s1, _ | err⟩ <;> rfl
  · intro e he
    rw [handleSysSeal_of_put core r s hm]
    rcases hc : core.Seal s with ⟨s1, _ | err⟩
    · rw [hc] at he
      cases he
    · rw [hc] at he
      cases he
      rfl
  · intro req key hp hne hd
    refine ⟨unseal_calls_of_key core parse r s req key hm hp hne hd, ?_⟩
    intro e he
    rw [handleSysUnseal_of_key core parse r s req key hm hp hne hd]
    rcases hu : core.Unseal s key with ⟨s1, b, _ | err⟩
    · rw [hu] at he
      cases he
    · rw [hu] at he
      cases he
      rfl

/-- Witness of C7: a core whose `Seal` and `Unseal` fail and whose state counts
their calls. -/
theorem core_errors_are_surfaced_witness :
    (handleSysSeal failingCore (demoRequest "PUT" [97, 98]) 0).2.filter Event.isSeal =
      [.coreSeal] ∧
    handleSysSeal failingCore (demoRequest "PUT" [97, 98]) 0 =
      (1, [.coreSeal, .respondError 500 (some (errorsNew "seal failed"))]) ∧
    (handleSysUnseal failingCore demoParse (demoRequest "PUT" [97, 98]) 0).2.filter
      Event.isUnseal = [.coreUnseal [171]] ∧
    handleSysUnseal failingCore demoParse (demoRequest "PUT" [97, 98]) 0 =
      (1, [.parseRequest, .coreUnseal [171],
           .respondError 500 (some (errorsNew "unseal failed"))]) :=
  ⟨(core_errors_are_surfaced failingCore demoParse (demoRequest "PUT" [97, 98]) 0 rfl).2.1,
    (core_errors_are_surfaced failingCore demoParse (demoRequest "PUT" [97, 98]) 0
      rfl).2.2.2.1 _ rfl,
    ((core_errors_are_surfaced failingCore demoParse (demoRequest "PUT" [97, 98]) 0
      rfl).2.2.2.2 { Key := [97, 98] } [171] rfl (by decide) rfl).1,
    ((core_errors_are_surfaced failingCore demoParse (demoRequest "PUT" [97, 98]) 0
      rfl).2.2.2.2 { Key := [97, 98] } [171] rfl (by decide) rfl).2 _ rfl⟩

/-- C8: `handleSysSealStatus` never calls `core.Seal` or `core.Unseal`, and every
call it makes on the core is one of the accessors `Sealed`, `SealConfig`,
`SecretProgress`; for a method other than `GET` it responds 405 and makes no call
at all; and when the accessors leave the state of the core alone, so does the
status query. -/
theorem status_query_only_reads (core : Core σ) (r : Request β) (s : σ) :
    (∀ e ∈ (handleSysSealStatus core r s).2,
      e.isSeal = false ∧ e.isUnseal = false ∧ (e.isCoreCall = true → e.isAccessor = true)) ∧
    (r.Method ≠ "GET" →
      handleSysSealStatus core r s = (s, [.respondError StatusMethodNotAllowed none])) ∧
    ((∀ x, (core.Sealed x).1 = x) → (∀ x, (core.SealConfig x).1 = x) →
      (∀ x, (core.SecretProgress x).1 = x) → (handleSysSealStatus core r s).1 = s) := by
  refine ⟨?_, ?_, ?_⟩
  · unfold handleSysSealStatus
    split_ifs
    · simp [Event.isSeal, Event.isUnseal, Event.isCoreCall]
    · exact statusRaw_accessors core s
  · intro hm
    unfold handleSysSealStatus
    rw [if_pos hm]
  · intro h1 h2 h3
    unfold handleSysSealStatus
    split_ifs
    · rfl
    · exact statusRaw_state core s h1 h2 h3

/-- Witness of C8: a `PUT` status query is refused, and a `GET` status query on
the unsealed coordinator leaves it as it was. -/
theorem status_query_only_reads_witness :
    handleSysSealStatus (specCore demoScheme) (demoRequest "PUT" []) demoUnsealed =
      (demoUnsealed, [.respondError StatusMethodNotAllowed none]) ∧
    (handleSysSealStatus (specCore demoScheme) (demoRequest "GET" []) demoUnsealed).1 =
      demoUnsealed :=
  ⟨(status_query_only_reads (specCore demoScheme) (demoRequest "PUT" []) demoUnsealed).2.1
      (by decide),
    (status_query_only_reads (specCore demoScheme) (demoRequest "GET" []) demoUnsealed).2.2
      (fun _ => rfl) (fun _ => rfl) (fun _ => rfl)⟩

/-- C9: on a PUT request whose key is the hex encoding, in lower-case or in
upper-case digits, of a non-empty byte sequence `b`, the one call of `core.Unseal`
is `core.Unseal(b)`; and a key of `2k` hex digits decodes to a share of `k` bytes,
which for `k > 0` is the share handed to `core.Unseal`. -/
theorem unseal_share_is_hex_decoding (core : Core σ)
    (parse : β → Except GoError UnsealRequest) (r : Request β) (s : σ)
    (hm : r.Method = "PUT") :
    (∀ (b : List Nat) (upper : Bool), b ≠ [] → (∀ x ∈ b, x < 256) →
      parse r.Body = .ok { Key := hexEncode upper b } →
      (handleSysUnseal core parse r s).2.filter Event.isUnseal = [.coreUnseal b]) ∧
    (∀ (key : List Nat) (k : Nat), key.length = 2 * k → key.all isHexDigit = true →
      ∃ share, hexDecodeString key = .ok share ∧ share.length = k ∧
        (0 < k → parse r.Body = .ok { Key := key } →
          (handleSysUnseal core parse r s).2.filter Event.isUnseal = [.coreUnseal share])) := by
  refine ⟨?_, ?_⟩
  · intro b upper hne hb hp
    exact unseal_calls_of_key core parse r s _ b hm hp (hexEncode_ne_nil upper b hne)
      (hexDecodeString_hexEncode upper b hb)
  · intro key k hlen hall
    have hvalid : isValidHex key = true := by
      unfold isValidHex
      rw [hall, hlen]
      simp
    obtain ⟨share, hshare⟩ := (hexDecodeString_ok_iff key).2 hvalid
    have hl := hexDecodeString_length key share hshare
    refine ⟨share, hshare, by omega, ?_⟩
    intro hk hp
    have hne : key ≠ [] := by
      intro h
      rw [h] at hlen
      simp at hlen
      omega
    exact unseal_calls_of_key core parse r s _ share hm hp hne hshare

/-- Witness of C9: the bytes `de ad` sent as `DEAD`, and the four digits `dead`. -/
theorem unseal_share_is_hex_decoding_witness :
    (handleSysUnseal failingCore demoParse (demoRequest "PUT" [68, 69, 65, 68]) 0).2.filter
      Event.isUnseal = [.coreUnseal [222, 173]] ∧
    ∃ share, hexDecodeString [100, 101, 97, 100] = .ok share ∧ share.length = 2 ∧
      (handleSysUnseal failingCore demoParse (demoRequest "PUT" [100, 101, 97, 100]) 0).2.filter
        Event.isUnseal = [.coreUnseal share] := by
  refine ⟨(unseal_share_is_hex_decoding failingCore demoParse
      (demoRequest "PUT" [68, 69, 65, 68]) 0 rfl).1 [222, 173] true (by decide) (by decide)
      rfl, ?_⟩
  obtain ⟨share, h1, h2, h3⟩ := (unseal_share_is_hex_decoding failingCore demoParse
    (demoRequest "PUT" [100, 101, 97, 100]) 0 rfl).2 [100, 101, 97, 100] 2 rfl rfl
  exact ⟨share, h1, h2, h3 (by decide) rfl⟩

/-- Every run of the four functions holds at most one response, which is then the
last thing the handler does; the runs without a response are those that stop at
the dereference of a nil configuration. -/
theorem one_response_unless_nil_config (core : Core σ)
    (parse : β → Except GoError UnsealRequest) (r : Request β) (s : σ) :
    (∃ pre resp, (handleSysSeal core r s).2 = pre ++ [resp] ∧
      resp.isRespond = true ∧ responses pre = []) ∧
    (∀ tr, tr = (handleSysUnseal core parse r s).2 ∨
        tr = (handleSysSealStatus core r s).2 ∨
        tr = (handleSysSealStatusRaw core s).2 →
      (∃ pre resp, tr = pre ++ [resp] ∧ resp.isRespond = true ∧ responses pre = []) ∨
      (∃ pre, tr = pre ++ [.nilDereference] ∧ responses tr = [])) := by
  have hraw : ∀ x : σ,
      (∃ pre resp, (handleSysSealStatusRaw core x).2 = pre ++ [resp] ∧
        resp.isRespond = true ∧ responses pre = []) ∨
      (∃ pre, (handleSysSealStatusRaw core x).2 = pre ++ [.nilDereference] ∧
        responses (handleSysSealStatusRaw core x).2 = []) := by
    intro x
    rcases statusRaw_cases core x with ⟨_, e, h⟩ | ⟨_, e, h⟩ | ⟨_, st, h⟩ | ⟨_, h⟩
    · exact Or.inl ⟨[.coreSealed], .respondError StatusInternalServerError (some e),
        by rw [h]; rfl, rfl, rfl⟩
    · exact Or.inl ⟨[.coreSealed, .coreSealConfig],
        .respondError StatusInternalServerError (some e), by rw [h]; rfl, rfl, rfl⟩
    · exact Or.inl ⟨[.coreSealed, .coreSealConfig, .coreSecretProgress],
        .respondOk (some st), by rw [h]; rfl, rfl, rfl⟩
    · exact Or.inr ⟨[.coreSealed, .coreSealConfig], by rw [h]; rfl, by rw [h]; rfl⟩
  refine ⟨?_, ?_⟩
  · unfold handleSysSeal
    split_ifs
    · exact ⟨[], _, rfl, rfl, rfl⟩
    · rcases core.Seal s with ⟨s1, _ | err⟩
      · exact ⟨[.coreSeal], _, rfl, rfl, rfl⟩
      · exact ⟨[.coreSeal], _, rfl, rfl, rfl⟩
  · rintro tr (rfl | rfl | rfl)
    · rcases unseal_cases core parse r s with
        ⟨pre, status, err, heq, hpre⟩ | ⟨key, err, heq⟩ | ⟨key, heq⟩
      · refine Or.inl ⟨pre, .respondError status err, by rw [heq], rfl, ?_⟩
        rcases hpre with rfl | rfl <;> rfl
      · exact Or.inl ⟨[.parseRequest, .coreUnseal key],
          .respondError StatusInternalServerError (some err), by rw [heq]; rfl, rfl, rfl⟩
      · rcases hraw (core.Unseal s key).1 with ⟨pre, resp, h1, h2, h3⟩ | ⟨pre, h1, h2⟩
        · refine Or.inl ⟨.parseRequest :: .coreUnseal key :: pre, resp, ?_, h2, ?_⟩
          · rw [heq]
            simp only [h1, List.cons_append]
          · exact h3
        · refine Or.inr ⟨.parseRequest :: .coreUnseal key :: pre, ?_, ?_⟩
          · rw [heq]
            simp only [h1, List.cons_append]
          · rw [heq]
            exact h2
    · unfold handleSysSealStatus
      split_ifs
      · exact Or.inl ⟨[], _, rfl, rfl, rfl⟩
      · exact hraw s
    · exact hraw s

/-- C10 fails on the code: a status query, a run of `handleSysSealStatusRaw` and an
unseal submission that `core.Unseal` accepts, each on a core whose `SealConfig`
returns a nil configuration with a nil error, stop at the dereference of the nil
configuration and write no response. -/
theorem nil_config_gets_no_response :
    (nilConfigCore.Sealed 0).2.2 = none ∧
    nilConfigCore.SealConfig 0 = (0, (none, none)) ∧
    handleSysSealStatus nilConfigCore (demoRequest "GET" []) 0 =
      (0, [.coreSealed, .coreSealConfig, .nilDereference]) ∧
    responses (handleSysSealStatus nilConfigCore (demoRequest "GET" []) 0).2 = [] ∧
    responses (handleSysSealStatusRaw nilConfigCore 0).2 = [] ∧
    handleSysUnseal nilConfigCore demoParse (demoRequest "PUT" [97, 98]) 0 =
      (1, [.parseRequest, .coreUnseal [171], .coreSealed, .coreSealConfig,
           .nilDereference]) ∧
    responses (handleSysUnseal nilConfigCore demoParse (demoRequest "PUT" [97, 98]) 0).2 =
      [] := by
  have hraw : ∀ n : Nat, handleSysSealStatusRaw nilConfigCore n =
      (n, [.coreSealed, .coreSealConfig, .nilDereference]) :=
    fun n => statusRaw_of_nil_config nilConfigCore n n n true rfl rfl
  have hstatus : handleSysSealStatus nilConfigCore (demoRequest "GET" []) 0 =
      (0, [.coreSealed, .coreSealConfig, .nilDereference]) := by
    unfold handleSysSealStatus
    rw [if_neg (by decide)]
    exact hraw 0
  have hunseal : handleSysUnseal nilConfigCore demoParse (demoRequest "PUT" [97, 98]) 0 =
      (1, [.parseRequest, .coreUnseal [171], .coreSealed, .coreSealConfig,
           .nilDereference]) := by
    rw [handleSysUnseal_of_key nilConfigCore demoParse (demoRequest "PUT" [97, 98]) 0
      { Key := [97, 98] } [171] rfl rfl (by decide) rfl]
    show ((handleSysSealStatusRaw nilConfigCore 1).1,
      Event.parseRequest :: Event.coreUnseal [171] ::
        (handleSysSealStatusRaw nilConfigCore 1).2) = _
    rw [hraw 1]
  refine ⟨rfl, rfl, hstatus, ?_, ?_, hunseal, ?_⟩
  · rw [hstatus]
    rfl
  · rw [hraw 0]
    rfl
  · rw [hunseal]
    rfl

end ClaimsErrors

end Vault
